import Mathlib

/-!
Shallow embedding of `VendureDocsService` (src/unnamed/part_001), the
documentation retrieval subsystem of the Vendure MCP server: markdown section
parsing, table-of-contents rendering, section lookup, numeric pagination, and
the cache → network → disk → fallback resolution chain.

Strings are modelled as `List Char` (`Str`), so that JavaScript's
`String.prototype.split('\n')` / `Array.prototype.join('\n')` and the string
concatenations in the source become directly executable Lean functions.
-/

namespace Vendure

/-- A JavaScript string, modelled as its list of characters. -/
abbrev Str := List Char

/-- JS `s.split('\n')`: splits on every newline; `"".split('\n') = [""]` and a
trailing newline produces a trailing empty element. -/
def splitNl : Str → List Str
  | [] => [[]]
  | c :: rest =>
      let r := splitNl rest
      if c = '\n' then [] :: r
      else
        match r with
        | [] => [[c]]
        | h :: t => (c :: h) :: t

/-- JS `arr.join('\n')`: `[].join = ""`, single element is itself, otherwise
elements separated by a single newline. -/
def joinNl : List Str → Str
  | [] => []
  | [x] => x
  | x :: y :: t => x ++ '\n' :: joinNl (y :: t)

/-- JS `arr.join(sep)` for an arbitrary separator (used by the not-found
message, which joins the available section titles with `"\n- "`). -/
def joinSep (sep : Str) : List Str → Str
  | [] => []
  | [x] => x
  | x :: y :: t => x ++ sep ++ joinSep sep (y :: t)

/-- Decimal rendering of a natural number, as in JS template literals. -/
def natStr (n : Nat) : Str := (Nat.repr n).data

/-- The optional `metadata` fields of a `PaginationResult`
(src/unnamed/part_001 lines 19-28). Absent fields are `none`. -/
structure Metadata where
  totalSections : Option Nat := none
  currentSection : Option Str := none
  totalPages : Option Nat := none
  currentPage : Option Nat := none
  pageSize : Option Nat := none
deriving DecidableEq

/-- The `PaginationResult` record (src/unnamed/part_001 lines 19-28). -/
structure PaginationResult where
  content : Str
  metadata : Metadata
deriving DecidableEq

/-- The invalid-page message rendered by `getPage`:
`# Invalid Page\n\nPage ${page} is out of range. Total pages: ${totalPages}`. -/
def invalidPageMsg (page totalPages : Nat) : Str :=
  ("# Invalid Page\n\nPage ").data ++ natStr page ++
    (" is out of range. Total pages: ").data ++ natStr totalPages

/-- Embedding of `VendureDocsService.getPage` (src/unnamed/part_001 lines 183-209).
`Math.ceil(lines.length / pageSize)` is `(len + pageSize - 1) / pageSize` for
`pageSize ≥ 1` (all call sites: the dispatcher always passes a non-zero
pageSize, and every claim involving this function assumes `pageSize ≥ 1`).
`lines.slice(startLine, endLine)` is `drop startLine` then
`take (endLine - startLine)`. -/
def getPage (content : Str) (page pageSize : Nat) : PaginationResult :=
  let lines := splitNl content
  let totalPages := (lines.length + pageSize - 1) / pageSize
  if page < 1 || page > totalPages then
    { content := invalidPageMsg page totalPages,
      metadata := { totalPages := some totalPages, pageSize := some pageSize } }
  else
    let startLine := (page - 1) * pageSize
    let endLine := min (startLine + pageSize) lines.length
    let pageContent := joinNl ((lines.drop startLine).take (endLine - startLine))
    { content := pageContent,
      metadata := { totalPages := some totalPages, currentPage := some page,
                    pageSize := some pageSize } }

/-- Total page count as computed by `getPage`. -/
def totalPagesOf (content : Str) (pageSize : Nat) : Nat :=
  ((splitNl content).length + pageSize - 1) / pageSize

/-- The concrete-scenario document of the spec: `"# A\nx\n## B\ny\n"`. -/
def docC : Str := ("# A\nx\n## B\ny\n").data

/-- The character class of the JS regex `\s` (ECMAScript WhiteSpace plus
LineTerminator), which is also exactly the set of characters stripped by JS
`String.prototype.trim`. -/
def isJsWs (c : Char) : Bool :=
  c = ' ' || c = '\t' || c = '\n' || c = '\x0b' || c = '\x0c' || c = '\r' ||
  c.toNat = 0xA0 || c.toNat = 0x1680 ||
  (0x2000 ≤ c.toNat && c.toNat ≤ 0x200A) ||
  c.toNat = 0x2028 || c.toNat = 0x2029 || c.toNat = 0x202F ||
  c.toNat = 0x205F || c.toNat = 0x3000 || c.toNat = 0xFEFF

/-- ECMAScript LineTerminator characters: what JS regex `.` refuses to
match. -/
def isLineTerm (c : Char) : Bool :=
  c = '\n' || c = '\r' || c.toNat = 0x2028 || c.toNat = 0x2029

/-- JS `String.prototype.trim`: strip `isJsWs` characters from both ends. -/
def jsTrim (s : Str) : Str :=
  ((s.dropWhile isJsWs).reverse.dropWhile isJsWs).reverse

/-- Length of the leading run of `'#'` characters. -/
def hashCount : Str → Nat
  | [] => 0
  | c :: rest => if c = '#' then hashCount rest + 1 else 0

/-- Embedding of `line.match(/^(#\x7b1,6\x7d)\s+(.+)$/)` (src/unnamed/part_001 line 94), returning
`(capture 1 length, trimmed capture 2)` — i.e. `(level, title)` as consumed at
line 105-106. The regex engine takes the full leading `'#'` run (backtracking
to fewer `'#'`s always fails, since the next character is another `'#'`, not
whitespace; a run longer than 6 never matches), then `\s+` greedily takes the
longest whitespace run and gives characters back one at a time until `(.+)$`
(one or more non-LineTerminator characters reaching the end) succeeds: the
`find?` below scans the possible `\s+` lengths in exactly that order. -/
def headerMatch (line : Str) : Option (Nat × Str) :=
  let k := hashCount line
  if 1 ≤ k ∧ k ≤ 6 then
    let t := line.drop k
    let wmax := (t.takeWhile isJsWs).length
    match (List.range wmax).reverse.find? (fun i =>
        !(t.drop (i + 1)).isEmpty && (t.drop (i + 1)).all (fun c => !isLineTerm c)) with
    | some i => some (k, jsTrim (t.drop (i + 1)))
    | none => none
  else none

/-- The `Section` record (src/unnamed/part_001 lines 11-17): `content` is the body text
including the heading line. -/
structure Section where
  title : Str
  level : Nat
  content : Str
  startLine : Nat
  endLine : Nat
deriving DecidableEq

/-- The scan loop of `parseSections` (src/unnamed/part_001 lines 92-120):
`total` is `lines.length`, `idx` the current line index, `cur` the currently
open section, `acc` the sections already pushed. -/
def parseGo (total : Nat) : List Str → Nat → Option Section → List Section → List Section
  | [], _, cur, acc =>
      match cur with
      | some s => acc ++ [{ s with endLine := total - 1 }]
      | none => acc
  | line :: rest, idx, cur, acc =>
      match headerMatch line with
      | some kt =>
          let acc' :=
            match cur with
            | some s => acc ++ [{ s with endLine := idx - 1 }]
            | none => acc
          parseGo total rest (idx + 1)
            (some { title := kt.2, level := kt.1, content := line ++ ['\n'],
                    startLine := idx, endLine := idx }) acc'
      | none =>
          match cur with
          | some s =>
              parseGo total rest (idx + 1)
                (some { s with content := s.content ++ line ++ ['\n'] }) acc
          | none => parseGo total rest (idx + 1) none acc

/-- Embedding of `VendureDocsService.parseSections` (src/unnamed/part_001 lines 87-123). -/
def parseSections (content : Str) : List Section :=
  let lines := splitNl content
  parseGo lines.length lines 0 none []

/-- Here `leadsWith needle hay` means: `hay` starts with `needle` (helper for JS
`String.prototype.includes`). -/
def leadsWith : Str → Str → Bool
  | [], _ => true
  | _ :: _, [] => false
  | c :: nd, d :: hay => c = d && leadsWith nd hay

/-- JS `hay.includes(needle)`: `needle` occurs as a contiguous substring of
`hay` (used by the section matcher at src/unnamed/part_001 line 159). -/
def strIncludes : Str → Str → Bool
  | [], needle => leadsWith needle []
  | c :: rest, needle => leadsWith needle (c :: rest) || strIncludes rest needle

/-- JS `String.prototype.toLowerCase`, for the ASCII titles and queries this
service handles. -/
def lowerStr (s : Str) : Str := s.map Char.toLower

/-- The not-found message of `getSection` (src/unnamed/part_001 lines 162-168). -/
def notFoundMsg (sectionTitle : Str) (titles : List Str) : Str :=
  ("# Section Not Found\n\nCould not find section matching: \"").data ++
    sectionTitle ++ ("\"\n\n## Available sections:\n- ").data ++
    joinSep ("\n- ").data titles

/-- Embedding of `VendureDocsService.getSection` (src/unnamed/part_001 lines 155-178):
case-insensitive substring match of the query against each section title,
first match in document order wins. -/
def getSection (content : Str) (sectionTitle : Str) : PaginationResult :=
  let sections := parseSections content
  match sections.find? (fun s => strIncludes (lowerStr s.title) (lowerStr sectionTitle)) with
  | none =>
      { content := notFoundMsg sectionTitle (sections.map (fun s => s.title)),
        metadata := { totalSections := some sections.length } }
  | some s =>
      { content := s.content,
        metadata := { totalSections := some sections.length,
                      currentSection := some s.title } }

/-- JS `'  '.repeat(n)` and friends: `n` copies of `s` concatenated. -/
def repeatStr (s : Str) : Nat → Str
  | 0 => []
  | n + 1 => s ++ repeatStr s n

/-- One table-of-contents entry: `${'  '.repeat(level - 1)}${index + 1}. ${title}\n`. -/
def tocEntry (idx : Nat) (s : Section) : Str :=
  repeatStr ("  ").data (s.level - 1) ++ natStr (idx + 1) ++ (". ").data ++
    s.title ++ ['\n']

/-- The fixed text before the section list in the table of contents. -/
def tocHeader : Str :=
  ("# Vendure Documentation - Table of Contents\n\nUse the `section` parameter to retrieve specific sections.\n\n## Available Sections\n\n").data

/-- The fixed usage-examples text after the section list (braces written as
hex escapes). -/
def tocFooter : Str :=
  ("\n## Usage Examples\n\n- Get specific section: `\x7b \"type\": \"standard\", \"section\": \"Core Concepts\" \x7d`\n- Get page 1: `\x7b \"type\": \"standard\", \"page\": 1, \"pageSize\": 5000 \x7d`\n").data

/-- Embedding of `VendureDocsService.getTableOfContents` (src/unnamed/part_001
lines 128-150). -/
def getTableOfContents (content : Str) : PaginationResult :=
  let sections := parseSections content
  { content := tocHeader ++
      (sections.enum.map (fun p => tocEntry p.1 p.2)).flatten ++ tocFooter,
    metadata := { totalSections := some sections.length } }

/-- The caller's pagination options (src/unnamed/part_001 lines 54-58).
`sectionQ` models the `section` field (a Lean keyword). -/
structure DocOptions where
  sectionQ : Option Str := none
  page : Option Nat := none
  pageSize : Option Nat := none
deriving DecidableEq

/-- JS truthiness of `options?.section`: present and non-empty. -/
def secTruthy (options : Option DocOptions) : Bool :=
  match options.bind (fun o => o.sectionQ) with
  | some (_ :: _) => true
  | _ => false

/-- JS truthiness of `options?.page`: present and non-zero. -/
def pgTruthy (options : Option DocOptions) : Bool :=
  match options.bind (fun o => o.page) with
  | some (_ + 1) => true
  | _ => false

/-- JS `options.pageSize || 5000`: the default applies when `pageSize` is unset
or zero (falsy). -/
def pageSizeOrDefault (options : Option DocOptions) : Nat :=
  match options.bind (fun o => o.pageSize) with
  | some (n + 1) => n + 1
  | _ => 5000

/-- The dispatch of `VendureDocsService.getPaginatedDocs` (src/unnamed/part_001
lines 52-82) over the already-resolved document content: table of contents when
neither `section` nor `page` is truthy, else section lookup when `section` is
truthy, else numeric pagination when `page` is present, else the (unreachable)
full-content fallback. -/
def getPaginatedDocs (fullContent : Str) (options : Option DocOptions) : PaginationResult :=
  if !secTruthy options && !pgTruthy options then
    getTableOfContents fullContent
  else if secTruthy options then
    getSection fullContent ((options.bind (fun o => o.sectionQ)).getD [])
  else if (options.bind (fun o => o.page)).isSome then
    getPage fullContent ((options.bind (fun o => o.page)).getD 0)
      (pageSizeOrDefault options)
  else
    { content := fullContent, metadata := {} }

/-- The `cacheType` discriminator of `getDocumentContent`
(src/unnamed/part_001 line 211). -/
inductive CacheType
  | llms
  | full
deriving DecidableEq

/-- The `CachedContent` record (src/unnamed/part_001 lines 6-9): a document plus its
fetch timestamp in epoch milliseconds. -/
structure CachedContent where
  content : Str
  timestamp : Int
deriving DecidableEq

/-- The constant `CACHE_TTL_MS = 24 * 60 * 60 * 1000` (src/unnamed/part_001 line 32). -/
def CACHE_TTL_MS : Int := 24 * 60 * 60 * 1000

/-- Embedding of `VendureDocsService.isCacheValid` (src/unnamed/part_001 lines 280-282),
with `Date.now()` passed explicitly as `now`. -/
def isCacheValid (now : Int) (cache : CachedContent) : Bool :=
  now - cache.timestamp < CACHE_TTL_MS

/-- Embedding of `getFallbackLlmsTxt` (src/unnamed/part_001 lines 351-400). -/
def getFallbackLlmsTxt : Str :=
  ("# Vendure E-commerce Framework\n\nVendure is a modern, headless e-commerce framework built with TypeScript and Node.js.\n\n## Core Concepts\n\n### Project Structure\n- **Entities**: Custom database entities (*.entity.ts)\n- **Services**: Business logic services (*.service.ts)\n- **Plugins**: Modular extensions (*.plugin.ts)\n- **Migrations**: Database schema changes\n- **Configuration**: vendure-config.ts file\n\n### CLI Commands\n- **vendure add**: Add plugins, entities, services, and other components\n- **vendure migrate**: Run database migrations\n- **vendure init**: Initialize new Vendure project\n\n### Plugin System\n- Plugins extend Vendure functionality\n- Can add new GraphQL schema, services, entities\n- Support for payment providers, shipping methods, custom fields\n\n### Database Support\n- PostgreSQL (recommended)\n- MySQL/MariaDB\n- SQLite (development)\n\n## Documentation Links\n\n- Main Documentation: https://docs.vendure.io/\n- Plugin Development: https://docs.vendure.io/guides/developer-guide/plugins/\n- CLI Guide: https://docs.vendure.io/guides/developer-guide/cli/\n- API Reference: https://docs.vendure.io/reference/\n- GraphQL API: https://docs.vendure.io/graphql-api/\n- Configuration: https://docs.vendure.io/reference/vendure-config/\n\n## Best Practices\n\n- Use TypeScript for type safety\n- Follow plugin architecture for extensions\n- Implement proper error handling\n- Use database transactions for data consistency\n- Follow security best practices for authentication\n\nFor specific implementation details, refer to the comprehensive documentation at docs.vendure.io\n\nNote: This is fallback content. Official documentation may be temporarily unavailable.").data

/-- Embedding of `getFallbackLlmsFullTxt` (src/unnamed/part_001 lines 402-461). -/
def getFallbackLlmsFullTxt : Str :=
  ("# Vendure E-commerce Framework - Complete Reference\n\nVendure is a modern, headless GraphQL-first e-commerce framework built with TypeScript and Node.js.\n\n## Architecture Overview\n\n### Core Components\n- **Admin UI**: Angular-based administration interface\n- **Shop API**: Customer-facing GraphQL API\n- **Admin API**: Administration GraphQL API\n- **Worker**: Background job processing\n- **Plugin System**: Extensible architecture\n\n### Technology Stack\n- TypeScript/Node.js backend\n- GraphQL API (using Apollo Server)\n- Database: PostgreSQL, MySQL, or SQLite\n- ORM: TypeORM for database operations\n- Authentication: JWT-based sessions\n\n## CLI Commands Reference\n\n### vendure add\nAdd components to your Vendure project:\n- `vendure add plugin`: Add a new plugin\n- `vendure add entity`: Add a custom entity\n- `vendure add service`: Add a new service\n- `vendure add job-queue`: Add job queue functionality\n- `vendure add ui-extension`: Add Admin UI extensions\n\n### vendure migrate\nDatabase migration management:\n- `vendure migrate`: Run pending migrations\n- `vendure migrate:revert`: Revert last migration\n- `vendure migrate:generate`: Generate new migration\n\n## Documentation Resources\n\n### Primary Resources\n- Official Documentation: https://docs.vendure.io/\n- Getting Started: https://docs.vendure.io/guides/getting-started/\n- Developer Guide: https://docs.vendure.io/guides/developer-guide/\n- Plugin Development: https://docs.vendure.io/guides/developer-guide/plugins/\n- CLI Reference: https://docs.vendure.io/guides/developer-guide/cli/\n\n### API Documentation\n- GraphQL Playground: http://localhost:3000/admin-api (when running)\n- Shop API Schema: https://docs.vendure.io/graphql-api/shop/\n- Admin API Schema: https://docs.vendure.io/graphql-api/admin/\n- TypeScript API: https://docs.vendure.io/reference/\n\n### Community Resources\n- GitHub Repository: https://github.com/vendure-ecommerce/vendure\n- Discord Community: https://vendure.io/community/\n- YouTube Channel: Vendure E-commerce\n- Blog: https://vendure.io/blog/\n\nNote: This is fallback content. For the most comprehensive and up-to-date documentation, the service attempts to fetch from docs.vendure.io. If you\x27re seeing this message, the official documentation may be temporarily unavailable.").data

/-- Embedding of `getFallbackContent` (src/unnamed/part_001 lines 317-324). -/
def getFallbackContent (filename : Str) : Str :=
  if filename = ("llms.txt").data then getFallbackLlmsTxt
  else if filename = ("llms-full.txt").data then getFallbackLlmsFullTxt
  else ("# ").data ++ filename ++
    ("\n\nFallback content - official documentation temporarily unavailable.").data

/-- Embedding of `enhanceWithProjectContext` (src/unnamed/part_001 lines 326-349): `ctx` is
the `projectPath` of `getProjectContext()`, `none` when that call throws, in
which case the content passes through unchanged. -/
def enhanceWithProjectContext (ctx : Option Str) (content : Str) : Str :=
  match ctx with
  | none => content
  | some projectPath =>
      ("\n# Current Project Context\nProject Path: ").data ++ projectPath ++
        ("\n\n## Available MCP Tools\n- vendure_add: Add plugins, entities, services to your project\n- vendure_migrate: Run database migrations\n- vendure_analyse: Analyze project structure (tasks: list_plugins, analyze_project_structure, check_vendure_installation, get_database_type)\n\n---\n\n").data ++
        content

/-- The external world observed during one `getDocumentContent` call:
the clock, the network response for the requested filename (`none` for any
non-2xx status or transport error), the on-disk cache file for it (`none` when
missing or unparsable), and the project context. -/
structure Env where
  now : Int
  web : Option Str
  disk : Option CachedContent
  ctx : Option Str
deriving DecidableEq

/-- The observable outcome of one `getDocumentContent` call: the returned
text, the memory-cache slot and on-disk cache file for the requested kind
after the call, and whether a network fetch was attempted. -/
structure Outcome where
  result : Str
  mem : Option CachedContent
  disk : Option CachedContent
  fetchAttempted : Bool
deriving DecidableEq

/-- The fallback value returned at the end of the chain
(src/unnamed/part_001 lines 260-263): the kind's static text, enhanced with
project context for the `full` kind. -/
def fallbackResult (filename : Str) (cacheType : CacheType) (ctx : Option Str) : Str :=
  let fb := getFallbackContent filename
  if cacheType = CacheType.full then enhanceWithProjectContext ctx fb else fb

/-- The try-block and catch-block of `getDocumentContent`
(src/unnamed/part_001 lines 219-264), reached when the memory cache misses or
is stale: network fetch (enhancing before caching for the `full` kind, then
writing through to memory and disk); on failure the disk cache (a fresh file
populates memory and is returned; a stale file is deleted by
`loadFromDiskCache` and reported absent); on exhaustion the static fallback,
which is not cached. -/
def fetchChain (filename : Str) (cacheType : CacheType) (env : Env)
    (mem0 : Option CachedContent) : Outcome :=
  match env.web with
  | some content =>
      let contentToCache :=
        if cacheType = CacheType.full then enhanceWithProjectContext env.ctx content
        else content
      let cached : CachedContent := { content := contentToCache, timestamp := env.now }
      { result := contentToCache, mem := some cached, disk := some cached,
        fetchAttempted := true }
  | none =>
      match env.disk with
      | some diskCached =>
          if isCacheValid env.now diskCached then
            { result := diskCached.content, mem := some diskCached,
              disk := env.disk, fetchAttempted := true }
          else
            { result := fallbackResult filename cacheType env.ctx, mem := mem0,
              disk := none, fetchAttempted := true }
      | none =>
          { result := fallbackResult filename cacheType env.ctx, mem := mem0,
            disk := none, fetchAttempted := true }

/-- Embedding of `VendureDocsService.getDocumentContent` (src/unnamed/part_001
lines 211-265): a present, fresh memory cache is returned as-is with no fetch
and no mutation; otherwise the fetch chain runs. -/
def getDocumentContent (filename : Str) (cacheType : CacheType) (env : Env)
    (mem0 : Option CachedContent) : Outcome :=
  match mem0 with
  | some cache =>
      if isCacheValid env.now cache then
        { result := cache.content, mem := mem0, disk := env.disk,
          fetchAttempted := false }
      else fetchChain filename cacheType env mem0
  | none => fetchChain filename cacheType env mem0

end Vendure

namespace Vendure

theorem splitNl_ne_nil (s : Str) : splitNl s ≠ [] := by
  induction s with
  | nil => simp [splitNl]
  | cons c rest ih =>
      simp only [splitNl]
      split
      · simp
      · cases h : splitNl rest with
        | nil => simp
        | cons a t => simp

theorem joinNl_cons (x : Str) (ys : List Str) (h : ys ≠ []) :
    joinNl (x :: ys) = x ++ '\n' :: joinNl ys := by
  cases ys with
  | nil => exact absurd rfl h
  | cons y t => rfl

/-- Round-trip: splitting a string on newlines and joining
the parts with newlines reconstructs the string. -/
theorem joinNl_splitNl (s : Str) : joinNl (splitNl s) = s := by
  induction s with
  | nil => rfl
  | cons c rest ih =>
      simp only [splitNl]
      by_cases hc : c = '\n'
      · subst hc
        rw [if_pos rfl, joinNl_cons _ _ (splitNl_ne_nil rest), ih]
        rfl
      · simp only [if_neg hc]
        cases h : splitNl rest with
        | nil => exact absurd h (splitNl_ne_nil rest)
        | cons a t =>
            rw [h] at ih
            cases t with
            | nil =>
                simp only [joinNl] at ih ⊢
                rw [ih]
            | cons b t' =>
                simp only [joinNl] at ih ⊢
                rw [List.cons_append, ih]

theorem joinNl_append (xs ys : List Str) (hx : xs ≠ []) (hy : ys ≠ []) :
    joinNl (xs ++ ys) = joinNl xs ++ '\n' :: joinNl ys := by
  induction xs with
  | nil => exact absurd rfl hx
  | cons x xs' ih =>
      cases xs' with
      | nil =>
          rw [List.singleton_append, joinNl_cons x ys hy]
          rfl
      | cons x2 t =>
          rw [List.cons_append, joinNl_cons x ((x2 :: t) ++ ys) (by simp),
              joinNl_cons x (x2 :: t) (by simp), ih (by simp)]
          simp [List.append_assoc]

theorem take_min_length {α : Type} (l : List α) (a : Nat) :
    l.take (min a l.length) = l.take a := by
  rcases Nat.le_total a l.length with h | h
  · rw [Nat.min_eq_left h]
  · rw [Nat.min_eq_right h, List.take_of_length_le h,
        List.take_of_length_le (Nat.le_refl _)]

/-- On an in-range page, `getPage` returns the `pageSize`-sized slice of lines
starting at `(page - 1) * pageSize`, newline-joined. -/
theorem getPage_valid_content (content : Str) (p ps : Nat) (hp1 : 1 ≤ p)
    (hp2 : p ≤ totalPagesOf content ps) :
    (getPage content p ps).content =
      joinNl (((splitNl content).drop ((p - 1) * ps)).take ps) := by
  have h2 : ¬ (p > totalPagesOf content ps) := Nat.not_lt.mpr hp2
  rw [totalPagesOf] at h2
  simp only [getPage]
  rw [if_neg (by simp [Nat.not_lt.mpr hp1, h2])]
  simp only
  have hmin : min ((p - 1) * ps + ps) (splitNl content).length - (p - 1) * ps =
      min ps ((splitNl content).length - (p - 1) * ps) := by omega
  rw [hmin, ← List.length_drop, take_min_length]

/-- Joining the consecutive `ps`-line chunks of a non-empty line list (each
chunk newline-joined) with newlines reconstructs the newline-join of all
lines. -/
theorem pages_reconstruct (ps : Nat) (hps : 1 ≤ ps) :
    ∀ n (lines : List Str), lines.length = n → lines ≠ [] →
      joinNl ((List.range ((lines.length + ps - 1) / ps)).map
        (fun i => joinNl ((lines.drop (i * ps)).take ps))) = joinNl lines := by
  intro n
  induction n using Nat.strong_induction_on with
  | _ n IH =>
    intro lines hlen hne
    have hlen1 : 0 < lines.length := List.length_pos.mpr hne
    by_cases hle : lines.length ≤ ps
    · have htp : (lines.length + ps - 1) / ps = 1 :=
        Nat.div_eq_of_lt_le (by omega) (by omega)
      rw [htp]
      have hr1 : List.range 1 = [0] := rfl
      rw [hr1]
      simp only [List.map_cons, List.map_nil, Nat.zero_mul, List.drop_zero]
      rw [List.take_of_length_le hle]
      rfl
    · push_neg at hle
      have hdlen : (lines.drop ps).length = lines.length - ps := List.length_drop ..
      have hdne : lines.drop ps ≠ [] := by
        intro h
        rw [List.drop_eq_nil_iff] at h
        omega
      have htp : (lines.length + ps - 1) / ps = ((lines.length - ps) + ps - 1) / ps + 1 := by
        have heq : lines.length + ps - 1 = ((lines.length - ps) + ps - 1) + ps := by omega
        rw [heq, Nat.add_div_right _ (by omega)]
      have hk1 : 1 ≤ ((lines.length - ps) + ps - 1) / ps := by
        have hle2 : ps ≤ lines.length - ps + ps - 1 := by omega
        calc 1 = ps / ps := (Nat.div_self (by omega)).symm
        _ ≤ ((lines.length - ps) + ps - 1) / ps := Nat.div_le_div_right hle2
      rw [htp, List.range_succ_eq_map, List.map_cons, List.map_map]
      have hcong : ∀ i ∈ List.range (((lines.length - ps) + ps - 1) / ps),
          ((fun i => joinNl ((lines.drop (i * ps)).take ps)) ∘ Nat.succ) i =
          (fun i => joinNl (((lines.drop ps).drop (i * ps)).take ps)) i := by
        intro i _
        show joinNl ((lines.drop ((i + 1) * ps)).take ps) =
          joinNl (((lines.drop ps).drop (i * ps)).take ps)
        rw [List.drop_drop]
        have heq : ps + i * ps = (i + 1) * ps := by ring
        rw [heq]
      rw [List.map_congr_left hcong]
      have hih := IH (lines.length - ps) (by omega) (lines.drop ps)
        (by rw [hdlen]) hdne
      rw [hdlen] at hih
      have htail_ne :
          (List.range (((lines.length - ps) + ps - 1) / ps)).map
            (fun i => joinNl (((lines.drop ps).drop (i * ps)).take ps)) ≠ [] := by
        simp only [ne_eq, List.map_eq_nil_iff, List.range_eq_nil]
        omega
      rw [joinNl_cons _ _ htail_ne, hih]
      simp only [Nat.zero_mul, List.drop_zero]
      have htake_ne : lines.take ps ≠ [] := by
        rw [ne_eq, List.take_eq_nil_iff]
        push_neg
        exact ⟨by omega, hne⟩
      rw [← joinNl_append _ _ htake_ne hdne, List.take_append_drop]

/-- C1: Numeric pagination round-trip — for every document content string and
every pageSize ≥ 1, with totalPages as computed by the paginator, joining the
contents of pages 1 through totalPages in order with newlines reconstructs the
original document string exactly. -/
theorem c1_page_roundtrip (content : Str) (ps : Nat) (hps : 1 ≤ ps) :
    joinNl ((List.range' 1 (totalPagesOf content ps)).map
      (fun p => (getPage content p ps).content)) = content := by
  rw [List.range'_eq_map_range, List.map_map]
  have hcong : ∀ i ∈ List.range (totalPagesOf content ps),
      ((fun p => (getPage content p ps).content) ∘ (1 + ·)) i =
      (fun i => joinNl (((splitNl content).drop (i * ps)).take ps)) i := by
    intro i hi
    rw [List.mem_range] at hi
    show (getPage content (1 + i) ps).content = _
    rw [getPage_valid_content content (1 + i) ps (by omega) (by omega)]
    have heq : 1 + i - 1 = i := by omega
    rw [heq]
  rw [List.map_congr_left hcong]
  have hmain := pages_reconstruct ps hps (splitNl content).length (splitNl content)
    rfl (splitNl_ne_nil content)
  rw [totalPagesOf]
  rw [hmain, joinNl_splitNl]

/-- Witness for C1 at the concrete-scenario document with pageSize 2. -/
theorem c1_page_roundtrip_witness :
    joinNl ((List.range' 1 (totalPagesOf docC 2)).map
      (fun p => (getPage docC p 2).content)) = docC :=
  c1_page_roundtrip docC 2 (by decide)

/-- C2 counterexample: on the concrete-scenario document with pageSize 1 the
paginator reports totalPages = 5, not 4 — `split('\n')` of a string ending in
a newline produces a trailing empty line, so the document has five lines. -/
theorem c2_counterexample :
    (getPage docC 1 1).metadata.totalPages ≠ some 4 := by decide

/-- C2 (amended): for the document `"# A\nx\n## B\ny\n"` and pageSize 1,
numeric pagination yields totalPages = 5, with page 1 = `"# A"`, page 2 =
`"x"`, page 3 = `"## B"`, page 4 = `"y"`, and page 5 = `""` (the empty line
produced by the trailing newline). -/
theorem c2_amended :
    totalPagesOf docC 1 = 5 ∧
    (getPage docC 1 1).metadata.totalPages = some 5 ∧
    (getPage docC 1 1).content = ("# A").data ∧
    (getPage docC 2 1).content = ("x").data ∧
    (getPage docC 3 1).content = ("## B").data ∧
    (getPage docC 4 1).content = ("y").data ∧
    (getPage docC 5 1).content = [] := by decide

/-- C3 counterexample: on the concrete-scenario document with pageSize 1,
page 5 is in range (the document has 5 lines, so totalPages = 5): the
paginator returns it as a valid page with `currentPage = 5`, and even the
invalid request page = 0 reports totalPages = 5, not 4. -/
theorem c3_counterexample :
    (getPage docC 5 1).metadata.currentPage = some 5 ∧
    (getPage docC 0 1).metadata.totalPages ≠ some 4 := by decide

/-- C3 (amended): on the concrete-scenario document (5 pages at pageSize 1),
requesting page = 0 or page = 6 returns the explicit invalid-page message with
metadata `{totalPages: 5, pageSize: 1}` and no currentPage. -/
theorem c3_amended :
    getPage docC 0 1 =
      { content := ("# Invalid Page\n\nPage 0 is out of range. Total pages: 5").data,
        metadata := { totalPages := some 5, pageSize := some 1 } } ∧
    getPage docC 6 1 =
      { content := ("# Invalid Page\n\nPage 6 is out of range. Total pages: 5").data,
        metadata := { totalPages := some 5, pageSize := some 1 } } := by decide

/-- C4 counterexample: the body returned for section query `"b"` on the
concrete-scenario document is not `"## B\ny\n"` — the parser appends the
trailing empty line (from the document's final newline) plus another newline,
giving `"## B\ny\n\n"`. -/
theorem c4_counterexample :
    (getSection docC ("b").data).content ≠ ("## B\ny\n").data := by decide

/-- C4 (amended): for the document `"# A\nx\n## B\ny\n"`, section query `"b"`
(lowercase) matches the section titled `"B"` and returns that section's body
`"## B\ny\n\n"` (heading line, `"y"` line, and the trailing empty line, each
with a newline appended), with `currentSection` equal to the matched title
`"B"` (not the query string). -/
theorem c4_amended :
    getSection docC ("b").data =
      { content := ("## B\ny\n\n").data,
        metadata := { totalSections := some 2,
                      currentSection := some (("B").data) } } := by decide

/-- C5 counterexample: the line `"#\tA"` contains no space character at all —
its `'#'` is followed by a tab — yet the parser opens a section for it (the
regex `\s+` accepts any whitespace, not just spaces). -/
theorem c5_counterexample :
    parseSections (("#\tA").data) =
      [{ title := ("A").data, level := 1, content := ("#\tA\n").data,
         startLine := 0, endLine := 0 }] ∧
    ' ' ∉ ("#\tA").data := by decide

/-- C6 counterexample: with `section` present but equal to the empty string
and `page = 1`, the dispatcher performs numeric pagination, not section
lookup — an empty-string `section` is falsy, so "section present" does not
take precedence. -/
theorem c6_counterexample :
    getPaginatedDocs docC
        (some { sectionQ := some [], page := some 1, pageSize := none }) =
      getPage docC 1 5000 ∧
    getPaginatedDocs docC
        (some { sectionQ := some [], page := some 1, pageSize := none }) ≠
      getSection docC [] := by decide

/-- C6 (amended): `getPaginatedDocs` dispatches on JS truthiness of the
caller's options: a non-empty `section` performs section lookup and takes
precedence over `page`; otherwise a present non-zero `page` performs numeric
pagination with `pageSize` defaulting to 5000 when unset or zero; otherwise
(no truthy option — including an empty-string `section` or `page = 0`) the
table of contents is returned. -/
theorem c6_amended (content : Str) (options : Option DocOptions) :
    getPaginatedDocs content options =
      if secTruthy options then
        getSection content ((options.bind (fun o => o.sectionQ)).getD [])
      else if pgTruthy options then
        getPage content ((options.bind (fun o => o.page)).getD 0)
          (pageSizeOrDefault options)
      else getTableOfContents content := by
  unfold getPaginatedDocs
  cases hs : secTruthy options with
  | true => simp [hs]
  | false =>
      cases hp : pgTruthy options with
      | false => simp [hs, hp]
      | true =>
          have hsome : (options.bind (fun o => o.page)).isSome = true := by
            unfold pgTruthy at hp
            cases hpg : options.bind (fun o => o.page) with
            | none => rw [hpg] at hp; simp at hp
            | some n =>
                cases n with
                | zero => rw [hpg] at hp; simp at hp
                | succ m => simp
          simp [hs, hp, hsome]

/-- C10: for every document, calling `getPaginatedDocs` with `section` set to
the empty string and no `page` returns the table of contents rather than a
section-lookup result — the dispatch tests truthiness, not presence, so an
empty-string `section` is treated as absent. -/
theorem c10_empty_section_toc (content : Str) (psz : Option Nat) :
    getPaginatedDocs content
        (some { sectionQ := some [], page := none, pageSize := psz }) =
      getTableOfContents content := rfl

theorem all_take_of_le_takeWhile (p : Char → Bool) :
    ∀ (t : Str) (j : Nat), j ≤ (t.takeWhile p).length → (t.take j).all p = true := by
  intro t
  induction t with
  | nil =>
      intro j h
      simp only [List.takeWhile_nil, List.length_nil, Nat.le_zero] at h
      subst h
      rfl
  | cons c cs ih =>
      intro j h
      cases j with
      | zero => rfl
      | succ j' =>
          rw [List.takeWhile_cons] at h
          cases hp : p c with
          | false => rw [hp] at h; simp at h
          | true =>
              rw [hp] at h
              simp only [if_true, List.length_cons, Nat.succ_le_succ_iff] at h
              rw [List.take_succ_cons, List.all_cons, hp, Bool.true_and]
              exact ih j' h

theorem le_takeWhile_of_all_take (p : Char → Bool) :
    ∀ (t : Str) (j : Nat), j ≤ t.length → (t.take j).all p = true →
      j ≤ (t.takeWhile p).length := by
  intro t
  induction t with
  | nil =>
      intro j h _
      simpa using h
  | cons c cs ih =>
      intro j hlen hall
      cases j with
      | zero => exact Nat.zero_le _
      | succ j' =>
          rw [List.take_succ_cons, List.all_cons, Bool.and_eq_true] at hall
          rw [List.takeWhile_cons, if_pos hall.1]
          simp only [List.length_cons, Nat.succ_le_succ_iff]
          exact ih j' (by simpa using hlen) hall.2

theorem dropWhile_drop_of_all_take (p : Char → Bool) :
    ∀ (t : Str) (j : Nat), (t.take j).all p = true →
      (t.drop j).dropWhile p = t.dropWhile p := by
  intro t
  induction t with
  | nil => intro j _; simp
  | cons c cs ih =>
      intro j hall
      cases j with
      | zero => rfl
      | succ j' =>
          rw [List.take_succ_cons, List.all_cons, Bool.and_eq_true] at hall
          rw [List.drop_succ_cons, List.dropWhile_cons, if_pos hall.1]
          exact ih j' hall.2

/-- Dropping a prefix of whitespace characters does not change the trimmed
string. -/
theorem jsTrim_drop_of_all_take (t : Str) (j : Nat)
    (h : (t.take j).all isJsWs = true) : jsTrim (t.drop j) = jsTrim t := by
  unfold jsTrim
  rw [dropWhile_drop_of_all_take isJsWs t j h]

/-- C5 (amended): a line opens a new section if and only if it starts with
1-6 `'#'` characters followed by at least one whitespace character (`\s`, not
only the space character) with, after some non-empty whitespace prefix of the
remainder, a non-empty tail free of line-terminator characters; on a match the
new section's level equals the number of leading `'#'` characters and its
title is the trimmed text following the `'#'` run. -/
theorem c5_amended (line : Str) :
    ((headerMatch line).isSome = true ↔
      (1 ≤ hashCount line ∧ hashCount line ≤ 6 ∧
        ∃ j, 1 ≤ j ∧ j < (line.drop (hashCount line)).length ∧
          ((line.drop (hashCount line)).take j).all isJsWs = true ∧
          ((line.drop (hashCount line)).drop j).all (fun c => !isLineTerm c) = true)) ∧
    (∀ k ttl, headerMatch line = some (k, ttl) →
      k = hashCount line ∧ ttl = jsTrim (line.drop (hashCount line))) := by
  constructor
  · unfold headerMatch
    by_cases hk : 1 ≤ hashCount line ∧ hashCount line ≤ 6
    · rw [if_pos hk]
      simp only
      constructor
      · intro h
        refine ⟨hk.1, hk.2, ?_⟩
        have hfind : (((List.range ((line.drop (hashCount line)).takeWhile isJsWs).length).reverse.find?
            (fun i => !((line.drop (hashCount line)).drop (i + 1)).isEmpty &&
              ((line.drop (hashCount line)).drop (i + 1)).all (fun c => !isLineTerm c)))).isSome = true := by
          cases hf : (((List.range ((line.drop (hashCount line)).takeWhile isJsWs).length).reverse.find?
              (fun i => !((line.drop (hashCount line)).drop (i + 1)).isEmpty &&
                ((line.drop (hashCount line)).drop (i + 1)).all (fun c => !isLineTerm c)))) with
          | some i => rfl
          | none => rw [hf] at h; simp at h
        rw [List.find?_isSome] at hfind
        obtain ⟨i, hmem, hP⟩ := hfind
        rw [List.mem_reverse, List.mem_range] at hmem
        rw [Bool.and_eq_true, Bool.not_eq_true'] at hP
        have hne : (line.drop (hashCount line)).drop (i + 1) ≠ [] := by
          intro hnil
          rw [hnil] at hP
          simp at hP
        rw [ne_eq, List.drop_eq_nil_iff] at hne
        refine ⟨i + 1, by omega, by omega, ?_, hP.2⟩
        exact all_take_of_le_takeWhile isJsWs _ (i + 1) (by omega)
      · rintro ⟨_, _, j, hj1, hjlen, hall, hdot⟩
        have hjw : j ≤ ((line.drop (hashCount line)).takeWhile isJsWs).length :=
          le_takeWhile_of_all_take isJsWs _ j (by omega) hall
        have hfind : (((List.range ((line.drop (hashCount line)).takeWhile isJsWs).length).reverse.find?
            (fun i => !((line.drop (hashCount line)).drop (i + 1)).isEmpty &&
              ((line.drop (hashCount line)).drop (i + 1)).all (fun c => !isLineTerm c)))).isSome = true := by
          rw [List.find?_isSome]
          refine ⟨j - 1, ?_, ?_⟩
          · rw [List.mem_reverse, List.mem_range]
            omega
          · have hj : j - 1 + 1 = j := by omega
            rw [hj, Bool.and_eq_true, Bool.not_eq_true']
            refine ⟨?_, hdot⟩
            have hne : (line.drop (hashCount line)).drop j ≠ [] := by
              rw [ne_eq, List.drop_eq_nil_iff]
              omega
            cases hemp : ((line.drop (hashCount line)).drop j).isEmpty with
            | false => rfl
            | true => exact absurd (List.isEmpty_iff.mp hemp) hne
        cases hf : (((List.range ((line.drop (hashCount line)).takeWhile isJsWs).length).reverse.find?
            (fun i => !((line.drop (hashCount line)).drop (i + 1)).isEmpty &&
              ((line.drop (hashCount line)).drop (i + 1)).all (fun c => !isLineTerm c)))) with
        | some i => rfl
        | none => rw [hf] at hfind; simp at hfind
    · rw [if_neg hk]
      simp only [Option.isSome_none, Bool.false_eq_true, false_iff]
      intro hc
      exact hk ⟨hc.1, hc.2.1⟩
  · intro k ttl h
    unfold headerMatch at h
    by_cases hk : 1 ≤ hashCount line ∧ hashCount line ≤ 6
    · rw [if_pos hk] at h
      simp only at h
      cases hf : (((List.range ((line.drop (hashCount line)).takeWhile isJsWs).length).reverse.find?
          (fun i => !((line.drop (hashCount line)).drop (i + 1)).isEmpty &&
            ((line.drop (hashCount line)).drop (i + 1)).all (fun c => !isLineTerm c)))) with
      | none => rw [hf] at h; cases h
      | some i =>
          rw [hf] at h
          injection h with h'
          injection h' with hk' httl
          refine ⟨hk'.symm, ?_⟩
          have hmem := List.mem_of_find?_eq_some hf
          rw [List.mem_reverse, List.mem_range] at hmem
          rw [← httl, jsTrim_drop_of_all_take _ (i + 1)
            (all_take_of_le_takeWhile isJsWs _ (i + 1) (by omega))]
    · rw [if_neg hk] at h
      cases h

/-- Witness for the inner implication of C5 (amended): the line `"## Hello "`
opens a section with level 2 and trimmed title `"Hello"`. -/
theorem c5_amended_witness :
    headerMatch (("## Hello ").data) = some (2, ("Hello").data) ∧
    (2 = hashCount (("## Hello ").data) ∧
      ("Hello").data = jsTrim ((("## Hello ").data).drop (hashCount (("## Hello ").data)))) :=
  ⟨by decide, (c5_amended (("## Hello ").data)).2 2 (("Hello").data) (by decide)⟩

theorem leadsWith_iff (nd : Str) : ∀ s : Str,
    (leadsWith nd s = true ↔ ∃ post, s = nd ++ post) := by
  induction nd with
  | nil =>
      intro s
      simp only [leadsWith, List.nil_append, true_iff]
      exact ⟨s, rfl⟩
  | cons c nd' ih =>
      intro s
      cases s with
      | nil =>
          simp only [leadsWith, Bool.false_eq_true, false_iff, not_exists]
          intro post h
          cases h
      | cons d s' =>
          simp only [leadsWith, Bool.and_eq_true, decide_eq_true_eq, ih s',
            List.cons_append]
          constructor
          · rintro ⟨rfl, post, rfl⟩
            exact ⟨post, rfl⟩
          · rintro ⟨post, h⟩
            injection h with h1 h2
            exact ⟨h1.symm, post, h2⟩

theorem strIncludes_iff (hay : Str) : ∀ nd : Str,
    (strIncludes hay nd = true ↔ ∃ pre post, hay = pre ++ nd ++ post) := by
  induction hay with
  | nil =>
      intro nd
      simp only [strIncludes, leadsWith_iff]
      constructor
      · rintro ⟨post, h⟩
        exact ⟨[], post, by simpa using h⟩
      · rintro ⟨pre, post, h⟩
        have h' := h.symm
        rw [List.append_eq_nil] at h'
        have h'' := h'.1
        rw [List.append_eq_nil] at h''
        exact ⟨[], by simp [h''.2]⟩
  | cons c rest ih =>
      intro nd
      simp only [strIncludes, Bool.or_eq_true, leadsWith_iff, ih nd]
      constructor
      · rintro (⟨post, h⟩ | ⟨pre, post, h⟩)
        · exact ⟨[], post, by simpa using h⟩
        · exact ⟨c :: pre, post, by rw [h]; rfl⟩
      · rintro ⟨pre, post, h⟩
        cases pre with
        | nil => exact Or.inl ⟨post, by simpa using h⟩
        | cons p ps =>
            rw [List.cons_append, List.cons_append] at h
            injection h with h1 h2
            exact Or.inr ⟨ps, post, h2⟩

theorem strIncludes_refl (s : Str) : strIncludes s s = true := by
  rw [strIncludes_iff]
  exact ⟨[], [], by simp⟩

/-- Substring containment is transitive: if `q` occurs in `s` and `s` occurs
in `x`, then `q` occurs in `x`. -/
theorem strIncludes_trans {x s q : Str} (h2 : strIncludes x s = true)
    (h1 : strIncludes s q = true) : strIncludes x q = true := by
  rw [strIncludes_iff] at *
  obtain ⟨p1, s1, rfl⟩ := h2
  obtain ⟨p2, s2, rfl⟩ := h1
  exact ⟨p1 ++ p2, s2 ++ s1, by simp [List.append_assoc]⟩

/-- If the first element satisfying `p₁` also satisfies `p₂`, and `p₂` is
pointwise stronger than `p₁`, then it is also the first element satisfying
`p₂`. -/
theorem find?_first_mono {α : Type} (p₁ p₂ : α → Bool) (l : List α) (s : α)
    (h : l.find? p₁ = some s) (hmono : ∀ x, p₂ x = true → p₁ x = true)
    (hs : p₂ s = true) : l.find? p₂ = some s := by
  induction l with
  | nil => cases h
  | cons a t ih =>
      cases hp1 : p₁ a with
      | true =>
          rw [List.find?_cons_of_pos _ hp1] at h
          injection h with h'
          subst h'
          rw [List.find?_cons_of_pos _ hs]
      | false =>
          have hp2 : p₂ a = false := by
            cases hq : p₂ a
            · rfl
            · rw [hmono a hq] at hp1
              cases hp1
          rw [List.find?_cons_of_neg _ (by simp [hp1])] at h
          rw [List.find?_cons_of_neg _ (by simp [hp2])]
          exact ih h

/-- C7: section lookup is idempotent — whenever a query matches some section
(`currentSection = some t` with `t` the matched title), querying again with
that exact returned title produces the identical result (same body content,
same `currentSection`, same `totalSections`). -/
theorem c7_section_idempotent (content q t : Str)
    (h : (getSection content q).metadata.currentSection = some t) :
    getSection content t = getSection content q := by
  simp only [getSection] at h ⊢
  cases hf : (parseSections content).find?
      (fun s => strIncludes (lowerStr s.title) (lowerStr q)) with
  | none =>
      rw [hf] at h
      simp at h
  | some s =>
      rw [hf] at h
      simp only at h
      injection h with ht
      have hs_p1 : strIncludes (lowerStr s.title) (lowerStr q) = true := by
        have hx := List.find?_some hf
        simpa using hx
      have hf2 : (parseSections content).find?
          (fun x => strIncludes (lowerStr x.title) (lowerStr t)) = some s := by
        refine find?_first_mono _ _ _ s hf (fun x hx => ?_) ?_
        · rw [← ht] at hx
          exact strIncludes_trans hx hs_p1
        · rw [← ht]
          exact strIncludes_refl (lowerStr s.title)
      rw [hf2]

/-- Witness for C7 on the concrete-scenario document: query `"b"` matches the
section titled `"B"`, and re-querying with `"B"` returns the same result. -/
theorem c7_section_idempotent_witness :
    getSection docC (("B").data) = getSection docC (("b").data) :=
  c7_section_idempotent docC (("b").data) (("B").data) (by decide)

/-- Every run of the fetch chain attempts the network fetch. -/
theorem fetchChain_fetchAttempted (filename : Str) (cacheType : CacheType)
    (env : Env) (mem0 : Option CachedContent) :
    (fetchChain filename cacheType env mem0).fetchAttempted = true := by
  cases hw : env.web with
  | some c => simp [fetchChain, hw]
  | none =>
      cases hd : env.disk with
      | none => simp [fetchChain, hw, hd]
      | some d =>
          by_cases hv : isCacheValid env.now d = true
          · simp [fetchChain, hw, hd, hv]
          · simp [fetchChain, hw, hd, hv]

/-- C8: a cached document is stale exactly when `now - fetchedAt ≥ 24h`; a
document cached at time T and re-requested at `T + TTL - 1` ms is served from
the memory cache with no network fetch and no cache mutation, while
re-requesting at `T + TTL + 1` ms does trigger a network fetch. -/
theorem c8_cache_freshness (filename : Str) (cacheType : CacheType) (env : Env)
    (c : Str) (T : Int) (now : Int) (cc : CachedContent) :
    (isCacheValid now cc = false ↔ CACHE_TTL_MS ≤ now - cc.timestamp) ∧
    getDocumentContent filename cacheType { env with now := T + CACHE_TTL_MS - 1 }
        (some { content := c, timestamp := T }) =
      { result := c, mem := some { content := c, timestamp := T },
        disk := env.disk, fetchAttempted := false } ∧
    (getDocumentContent filename cacheType { env with now := T + CACHE_TTL_MS + 1 }
        (some { content := c, timestamp := T })).fetchAttempted = true := by
  refine ⟨?_, ?_, ?_⟩
  · simp only [isCacheValid, decide_eq_false_iff_not, Int.not_lt]
  · have hval : isCacheValid (T + CACHE_TTL_MS - 1)
        { content := c, timestamp := T } = true := by
      simp only [isCacheValid, decide_eq_true_eq]
      omega
    simp [getDocumentContent, hval]
  · have hval : isCacheValid (T + CACHE_TTL_MS + 1)
        { content := c, timestamp := T } = false := by
      simp only [isCacheValid, decide_eq_false_iff_not, Int.not_lt]
      omega
    simp [getDocumentContent, hval, fetchChain_fetchAttempted]

/-- C9 counterexample: with the network failing and the disk cache stale —
neither a network-success nor a disk-hit step — the resolution run still
mutates the disk cache: `loadFromDiskCache` deletes the stale file, so the
disk slot goes from a present file to absent. -/
theorem c9_counterexample :
    (Env.web { now := CACHE_TTL_MS + 5, web := none,
               disk := some { content := ("old").data, timestamp := 0 },
               ctx := none }) = none ∧
    isCacheValid (CACHE_TTL_MS + 5) { content := ("old").data, timestamp := 0 } = false ∧
    (getDocumentContent ("llms.txt").data CacheType.llms
        { now := CACHE_TTL_MS + 5, web := none,
          disk := some { content := ("old").data, timestamp := 0 },
          ctx := none } none).disk = none ∧
    (Env.disk { now := CACHE_TTL_MS + 5, web := none,
                disk := some { content := ("old").data, timestamp := 0 },
                ctx := none }) ≠ none := by decide

/-- C9 (amended): when the network fetch fails, the memory cache is absent or
stale, and the disk cache misses, fails, or is stale, resolution returns the
kind's static fallback text (with the project-context header prepended for the
Full kind), the memory cache is not mutated and the fallback is not cached;
however, the disk-read step deletes a stale disk-cache file, so the disk slot
is empty afterwards — besides the network-success and disk-hit steps, the
stale-disk load also mutates the disk cache (by deletion). -/
theorem c9_fallback_frame (filename : Str) (cacheType : CacheType) (env : Env)
    (mem0 : Option CachedContent)
    (hweb : env.web = none)
    (hmem : ∀ cc, mem0 = some cc → isCacheValid env.now cc = false)
    (hdisk : ∀ d, env.disk = some d → isCacheValid env.now d = false) :
    getDocumentContent filename cacheType env mem0 =
      { result := fallbackResult filename cacheType env.ctx, mem := mem0,
        disk := none, fetchAttempted := true } := by
  have hchain : fetchChain filename cacheType env mem0 =
      { result := fallbackResult filename cacheType env.ctx, mem := mem0,
        disk := none, fetchAttempted := true } := by
    cases hd : env.disk with
    | none => simp [fetchChain, hweb, hd]
    | some d => simp [fetchChain, hweb, hd, hdisk d hd]
  cases hm : mem0 with
  | none =>
      rw [hm] at hchain
      simpa [getDocumentContent] using hchain
  | some cc =>
      rw [hm] at hchain
      simpa [getDocumentContent, hmem cc hm] using hchain

/-- Witness for C9 (amended): concrete run with a failed network fetch, empty
memory cache and a stale disk file. -/
theorem c9_fallback_frame_witness :
    getDocumentContent ("llms.txt").data CacheType.llms
        { now := CACHE_TTL_MS + 5, web := none,
          disk := some { content := ("old").data, timestamp := 0 },
          ctx := none } none =
      { result := fallbackResult ("llms.txt").data CacheType.llms none,
        mem := none, disk := none, fetchAttempted := true } :=
  c9_fallback_frame ("llms.txt").data CacheType.llms
    { now := CACHE_TTL_MS + 5, web := none,
      disk := some { content := ("old").data, timestamp := 0 }, ctx := none }
    none rfl
    (fun cc h => by cases h)
    (fun d h => by cases h; decide)

end Vendure
